import Mathlib

/-!
# truewind-c: true wind and current from apparent wind and vessel motion

A shallow embedding of `truewind.c` (`get_true`, `getAttitudeCorrections`) and
of the two records of `truewind.h`.

Modelling conventions.

* A C `double` is a value of an ordered field `α`; the functions are generic in
  `α`, and the theorems that need trigonometry are stated at `α = ℝ`.  Rounding,
  overflow, infinities and NaN are not modelled: arithmetic is exact.
* The `<math.h>` functions the code calls are collected in `Libm α`.  The
  interpretation `realLibm` gives them their mathematical meaning, with the
  C conventions `atan2(0, 0) = 0` and `isnan(x) = false` for every number.
* `x / 0` is `0` in Lean, where C gives an infinity or a NaN.  No theorem below relies on
  it: the divisor `cos (leeway * DEG_TO_RAD)` is proved positive, and what is proved about
  `getAttitudeCorrections` holds whatever its two quotients are.
* `char speedunit[10]` is a `String`; `strcmp` returns `0` exactly on equal
  strings.
* `fprintf (stderr, ...)` is explicit: `get_true` returns the returned record
  together with the list of lines written to `stderr`.
-/

namespace TrueWind

/-- The record `struct tw_input` of `truewind.h`. -/
structure tw_input (α : Type) where
  bspd : α
  sog : α
  cog : α
  aws : α
  awa : α
  heading : α
  variation : α
  roll : α
  pitch : α
  K : α
  speedunit : String

/-- The record `struct tw_output` of `truewind.h`. -/
structure tw_output (α : Type) where
  awa : α
  aws : α
  leeway : α
  stw : α
  vmg : α
  tws : α
  twa : α
  twd : α
  soc : α
  doc : α

/-- The functions of `<math.h>` used by `truewind.c`. -/
structure Libm (α : Type) where
  cos : α → α
  sin : α → α
  sqrt : α → α
  atan2 : α → α → α
  isnan : α → Bool

/-- The C library function `strcmp`: zero exactly when the strings are equal. -/
def strcmp (a b : String) : Int :=
  if a = b then 0 else if a < b then -1 else 1

section Generic

variable {α : Type} [LinearOrderedField α] [FloorRing α]

/-- The constant `#define PI 3.14159265`. -/
def PI : α := 3.14159265

/-- The constant `#define DEG_TO_RAD ((double)(PI/180.0))`. -/
def DEG_TO_RAD : α := PI / 180.0

/-- The constant `#define RAD_TO_DEG ((double) (180.0/PI))`. -/
def RAD_TO_DEG : α := 180.0 / PI

/-- The constant `#define MS_TO_KT (1.94384)`. -/
def MS_TO_KT : α := 1.94384

/-- The C conversion `(int) x` of a double: truncation toward zero. -/
def c_int_cast (x : α) : Int :=
  if 0 ≤ x then ⌊x⌋ else ⌈x⌉

/-- The message `get_true` writes to `stderr` on a validation failure. -/
def speedunit_message : String :=
  "With the paramter K, also specify \x7b speedunit = 'm/s' | 'kt' \x7d for bspd.\n"

/-- The value of `tout` after `memset (&tout, 0, sizeof (struct tw_output))`. -/
def tout_zero : tw_output α :=
  { awa := 0, aws := 0, leeway := 0, stw := 0, vmg := 0, tws := 0, twa := 0, twd := 0,
    soc := 0, doc := 0 }

/-- The function `getAttitudeCorrections` of `truewind.c` (lines 181-237). -/
def getAttitudeCorrections (m : Libm α) (src : tw_input α) : tw_input α :=
  let roll := src.roll
  let pitch := src.pitch
  if roll = 0 ∨ pitch = 0 then src
  else
    let awa := if src.awa < 0 then src.awa + 360 else src.awa
    let rwa0 := awa
    let ws0 := src.aws
    let wx0 := ws0 * m.sin (rwa0 * DEG_TO_RAD)
    let wy0 := ws0 * m.cos (rwa0 * DEG_TO_RAD)
    let wx1 := wx0
    let wy1 := wy0
    let wx2 := wx1 / m.cos (roll * DEG_TO_RAD)
    let wy2 := wy1 / m.cos (pitch * DEG_TO_RAD)
    let ws1 := m.sqrt (wx2 ^ 2 + wy2 ^ 2)
    let rwa1 := if wx2 = 0 ∧ wy2 = 0 then rwa0 else m.atan2 wx2 wy2 * RAD_TO_DEG
    let ws1 := if wx2 = 0 ∧ wy2 = 0 then ws0 else ws1
    let rwa1 := if rwa1 < 0 then rwa1 + 360 else rwa1
    { src with aws := ws1, awa := rwa1 }

/-- The part of `get_true` after the validation guard (lines 50-173 of `truewind.c`). -/
def get_true_compute (m : Libm α) (s0 : tw_input α) : tw_output α :=
  let s : tw_input α :=
    if s0.awa > 180 then { s0 with awa := s0.awa - 360 }
    else if s0.awa < -180 then { s0 with awa := s0.awa + 360 }
    else s0
  let s := getAttitudeCorrections m s
  let unit : α := if strcmp s.speedunit "kt" = 0 then 1 else MS_TO_KT
  let leeway : α :=
    if s.bspd = 0 ∨ s.roll = 0 ∨ s.K = 0 ∨ (s.roll > 0 ∧ s.awa > 0) ∨ (s.roll < 0 ∧ s.awa < 0)
    then 0
    else
      let leeway := (s.K * s.roll) / (s.bspd * unit * (s.bspd * unit))
      if leeway > 45 then 45 else if leeway < -45 then -45 else leeway
  let stw := s.bspd / m.cos (leeway * DEG_TO_RAD)
  let lateral_speed := stw * m.sin (leeway * DEG_TO_RAD)
  let cartesian_awa := (270 - s.awa) * DEG_TO_RAD
  let aws_x := s.aws * m.cos cartesian_awa
  let aws_y := s.aws * m.sin cartesian_awa
  let tws_x := aws_x + lateral_speed
  let tws_y := aws_y + s.bspd
  let tws := m.sqrt (tws_x * tws_x + tws_y * tws_y)
  let twa_cartesian := m.atan2 tws_y tws_x
  let twa : α :=
    if tws_y = 0 ∧ tws_x = 0 then s.awa
    else
      let twa := 270 - twa_cartesian * RAD_TO_DEG
      let twa : α := if s.awa ≥ 0 then ((Int.tmod (c_int_cast twa) 360 : Int) : α) else twa - 360
      if twa > 180 then twa - 360 else if twa < -180 then twa + 360 else twa
  let vmg := stw * m.cos ((-twa + leeway) * DEG_TO_RAD)
  let wdir := s.heading + twa
  let wdir := if wdir > 360 then wdir - 360 else if wdir < 0 then wdir + 360 else wdir
  let cog_mag := s.cog - s.variation
  let alpha := (90 - (s.heading + leeway)) * DEG_TO_RAD
  let gamma := (90 - cog_mag) * DEG_TO_RAD
  let curr_x := s.sog * m.cos gamma - stw * m.cos alpha
  let curr_y := s.sog * m.sin gamma - stw * m.sin alpha
  let soc := m.sqrt (curr_x * curr_x + curr_y * curr_y)
  let doc_cartesian := m.atan2 curr_y curr_x
  let doc : α :=
    if m.isnan doc_cartesian = true then
      if curr_y < 0 then 180 else 0
    else
      let doc := 90 - doc_cartesian * RAD_TO_DEG
      if doc > 360 then doc - 360 else if doc < 0 then doc + 360 else doc
  { awa := s.awa, aws := s.aws, leeway := leeway, stw := stw, vmg := vmg, tws := tws,
    twa := twa, twd := wdir + s.variation, soc := soc, doc := doc + s.variation }

/-- The function `get_true` of `truewind.c` (lines 36-174): the returned record and the
lines written to `stderr`. -/
def get_true (m : Libm α) (s : tw_input α) : tw_output α × List String :=
  if s.K ≠ 0 ∧ strcmp s.speedunit "kt" ≠ 0 ∧ strcmp s.speedunit "m/s" ≠ 0 then
    (tout_zero, [speedunit_message])
  else
    (get_true_compute m s, [])

/-! ### Names for intermediate values of `get_true`

Each is tied to the code by a lemma `out_*` below. -/

/-- The record `s` of `get_true` after the half-circle adjustment of lines 50-58. -/
def half_circle (s0 : tw_input α) : tw_input α :=
  if s0.awa > 180 then { s0 with awa := s0.awa - 360 }
  else if s0.awa < -180 then { s0 with awa := s0.awa + 360 }
  else s0

/-- The record `s` of `get_true` after line 61: half-circle adjustment, then attitude
correction. -/
def adjusted (m : Libm α) (s0 : tw_input α) : tw_input α :=
  getAttitudeCorrections m (half_circle s0)

/-- The unclamped leeway quotient of lines 75-79, in terms of the input record. -/
def leeway_quotient (s0 : tw_input α) : α :=
  (s0.K * s0.roll) / (s0.bspd * (if s0.speedunit = "kt" then 1 else MS_TO_KT) *
    (s0.bspd * (if s0.speedunit = "kt" then 1 else MS_TO_KT)))

/-- The x-component of the true wind vector (`tws_x` of line 102). -/
def tws_x (m : Libm α) (s0 : tw_input α) : α :=
  (get_true_compute m s0).aws * m.cos ((270 - (get_true_compute m s0).awa) * DEG_TO_RAD) +
    (get_true_compute m s0).stw * m.sin ((get_true_compute m s0).leeway * DEG_TO_RAD)

/-- The y-component of the true wind vector (`tws_y` of line 103). -/
def tws_y (m : Libm α) (s0 : tw_input α) : α :=
  (get_true_compute m s0).aws * m.sin ((270 - (get_true_compute m s0).awa) * DEG_TO_RAD) +
    s0.bspd

/-- The x-component of the current vector (`curr_x` of line 139). -/
def curr_x (m : Libm α) (s0 : tw_input α) : α :=
  s0.sog * m.cos ((90 - (s0.cog - s0.variation)) * DEG_TO_RAD) -
    (get_true_compute m s0).stw *
      m.cos ((90 - (s0.heading + (get_true_compute m s0).leeway)) * DEG_TO_RAD)

/-- The y-component of the current vector (`curr_y` of line 140). -/
def curr_y (m : Libm α) (s0 : tw_input α) : α :=
  s0.sog * m.sin ((90 - (s0.cog - s0.variation)) * DEG_TO_RAD) -
    (get_true_compute m s0).stw *
      m.sin ((90 - (s0.heading + (get_true_compute m s0).leeway)) * DEG_TO_RAD)

/-- The value of `twa` at line 116 of `truewind.c`, before truncation and normalization. -/
def twa_raw (m : Libm α) (s0 : tw_input α) : α :=
  270 - m.atan2 (tws_y m s0) (tws_x m s0) * RAD_TO_DEG

/-! ### Concrete input records used below -/

/-- The input of the demonstration harness `test.c`: every field zero, then
`awa = 45, aws = 10, cog = 90, heading = 85, bspd = 6.5, sog = 6`. -/
def reference_input : tw_input α :=
  { bspd := 6.5, sog := 6, cog := 90, aws := 10, awa := 45, heading := 85, variation := 0,
    roll := 0, pitch := 0, K := 0, speedunit := "" }

/-- An input that fails validation: `K = 1` and an empty `speedunit`. -/
def failing_input : tw_input α :=
  { bspd := 0, sog := 0, cog := 0, aws := 0, awa := 0, heading := 0, variation := 0,
    roll := 0, pitch := 0, K := 1, speedunit := "" }

/-- An input that passes validation and is all zero but `heading = 90`, `variation = -90`. -/
def becalmed_input : tw_input α :=
  { bspd := 0, sog := 0, cog := 0, aws := 0, awa := 0, heading := 90, variation := -90,
    roll := 0, pitch := 0, K := 0, speedunit := "" }

/-- The all-zero input but for the apparent wind angle `awa` and the `heading`. -/
def calm_input (awa heading : α) : tw_input α :=
  { bspd := 0, sog := 0, cog := 0, aws := 0, awa := awa, heading := heading, variation := 0,
    roll := 0, pitch := 0, K := 0, speedunit := "" }

/-- A boat heeling with roll `roll` and pitch `pitch`, wind 45 degrees from the left at 10,
boat speed 5 kt, leeway coefficient 10. -/
def heeling_input (roll pitch : α) : tw_input α :=
  { bspd := 5, sog := 0, cog := 0, aws := 10, awa := -45, heading := 0, variation := 0,
    roll := roll, pitch := pitch, K := 10, speedunit := "kt" }

/-- A boat whose ground track equals its water track: `sog = bspd = 5`, `cog = heading = 0`. -/
def no_current_input : tw_input α :=
  { bspd := 5, sog := 5, cog := 0, aws := 0, awa := 0, heading := 0, variation := 0,
    roll := 0, pitch := 0, K := 0, speedunit := "" }

/-- An apparent wind `(aws, awa)` on a boat that does not move; every other field is zero. -/
def moored_input (aws awa : α) : tw_input α :=
  { bspd := 0, sog := 0, cog := 0, aws := aws, awa := awa, heading := 0, variation := 0,
    roll := 0, pitch := 0, K := 0, speedunit := "" }

end Generic

/-- The mathematical meaning of the `<math.h>` functions on real numbers: `atan2 y x` is the
argument of `x + y i`, so `atan2 0 0 = 0` as C99 Annex F specifies, and no real number is a
NaN. -/
noncomputable def realLibm : Libm ℝ where
  cos := Real.cos
  sin := Real.sin
  sqrt := Real.sqrt
  atan2 := fun y x => Complex.arg (Complex.mk x y)
  isnan := fun _ => false

/-! ## Lemmas: the record `s` after the adjustments of lines 50-61 -/

theorem strcmp_eq_zero_iff (a b : String) : strcmp a b = 0 ↔ a = b := by
  unfold strcmp
  by_cases h : a = b
  · simp [h]
  · simp only [h, if_false, iff_false]
    split <;> decide

section Adjust

variable {α : Type} [LinearOrderedField α]

theorem half_circle_rest (s0 : tw_input α) :
    (half_circle s0).bspd = s0.bspd ∧ (half_circle s0).sog = s0.sog ∧
    (half_circle s0).cog = s0.cog ∧ (half_circle s0).aws = s0.aws ∧
    (half_circle s0).heading = s0.heading ∧ (half_circle s0).variation = s0.variation ∧
    (half_circle s0).roll = s0.roll ∧ (half_circle s0).pitch = s0.pitch ∧
    (half_circle s0).K = s0.K ∧ (half_circle s0).speedunit = s0.speedunit := by
  unfold half_circle
  split_ifs <;> simp

theorem half_circle_awa (s0 : tw_input α) :
    (half_circle s0).awa =
      if s0.awa > 180 then s0.awa - 360 else if s0.awa < -180 then s0.awa + 360 else s0.awa := by
  unfold half_circle
  split_ifs <;> rfl

theorem getAttitudeCorrections_rest (m : Libm α) (src : tw_input α) :
    (getAttitudeCorrections m src).bspd = src.bspd ∧
    (getAttitudeCorrections m src).sog = src.sog ∧
    (getAttitudeCorrections m src).cog = src.cog ∧
    (getAttitudeCorrections m src).heading = src.heading ∧
    (getAttitudeCorrections m src).variation = src.variation ∧
    (getAttitudeCorrections m src).roll = src.roll ∧
    (getAttitudeCorrections m src).pitch = src.pitch ∧
    (getAttitudeCorrections m src).K = src.K ∧
    (getAttitudeCorrections m src).speedunit = src.speedunit := by
  by_cases h : src.roll = 0 ∨ src.pitch = 0 <;> simp [getAttitudeCorrections, h]

theorem getAttitudeCorrections_noop (m : Libm α) (src : tw_input α)
    (h : src.roll = 0 ∨ src.pitch = 0) : getAttitudeCorrections m src = src := by
  simp [getAttitudeCorrections, h]

theorem adjusted_rest (m : Libm α) (s0 : tw_input α) :
    (adjusted m s0).bspd = s0.bspd ∧ (adjusted m s0).sog = s0.sog ∧
    (adjusted m s0).cog = s0.cog ∧ (adjusted m s0).heading = s0.heading ∧
    (adjusted m s0).variation = s0.variation ∧ (adjusted m s0).roll = s0.roll ∧
    (adjusted m s0).pitch = s0.pitch ∧ (adjusted m s0).K = s0.K ∧
    (adjusted m s0).speedunit = s0.speedunit := by
  obtain ⟨h1, h2, h3, -, h5, h6, h7, h8, h9, h10⟩ := half_circle_rest s0
  obtain ⟨g1, g2, g3, g5, g6, g7, g8, g9, g10⟩ := getAttitudeCorrections_rest m (half_circle s0)
  unfold adjusted
  exact ⟨g1.trans h1, g2.trans h2, g3.trans h3, g5.trans h5, g6.trans h6, g7.trans h7,
    g8.trans h8, g9.trans h9, g10.trans h10⟩

theorem adjusted_noop (m : Libm α) (s0 : tw_input α) (h : s0.roll = 0 ∨ s0.pitch = 0) :
    adjusted m s0 = half_circle s0 := by
  obtain ⟨-, -, -, -, -, -, h7, h8, -⟩ := half_circle_rest s0
  exact getAttitudeCorrections_noop m _ (by rw [h7, h8]; exact h)

/-- The record after the adjustments does not read `speedunit`, it only carries it. -/
theorem adjusted_speedunit (m : Libm α) (s : tw_input α) (u : String) :
    (adjusted m { s with speedunit := u }).awa = (adjusted m s).awa ∧
      (adjusted m { s with speedunit := u }).aws = (adjusted m s).aws := by
  have h1 : half_circle { s with speedunit := u } = { half_circle s with speedunit := u } := by
    unfold half_circle
    split_ifs <;> rfl
  have h2 : ∀ t : tw_input α, getAttitudeCorrections m { t with speedunit := u } =
      { getAttitudeCorrections m t with speedunit := u } := by
    intro t
    by_cases h : t.roll = 0 ∨ t.pitch = 0
    · simp [getAttitudeCorrections, h]
    · simp [getAttitudeCorrections, h]
  unfold adjusted
  rw [h1, h2]
  exact ⟨rfl, rfl⟩

end Adjust

/-! ## Lemmas: the fields of the returned record -/

section Fields

variable {α : Type} [LinearOrderedField α] [FloorRing α]

theorem get_true_pass (m : Libm α) (s : tw_input α)
    (hv : s.K = 0 ∨ s.speedunit = "kt" ∨ s.speedunit = "m/s") :
    get_true m s = (get_true_compute m s, []) := by
  unfold get_true
  rw [if_neg]
  simp only [ne_eq, strcmp_eq_zero_iff]
  tauto

theorem get_true_fail (m : Libm α) (s : tw_input α)
    (hv : s.K ≠ 0 ∧ s.speedunit ≠ "kt" ∧ s.speedunit ≠ "m/s") :
    get_true m s = (tout_zero, [speedunit_message]) := by
  unfold get_true
  rw [if_pos]
  simpa only [ne_eq, strcmp_eq_zero_iff] using hv

theorem out_awa (m : Libm α) (s0 : tw_input α) :
    (get_true_compute m s0).awa = (adjusted m s0).awa := rfl

theorem out_aws (m : Libm α) (s0 : tw_input α) :
    (get_true_compute m s0).aws = (adjusted m s0).aws := rfl

theorem out_awa_noop (m : Libm α) (s : tw_input α) (h : s.roll = 0 ∨ s.pitch = 0) :
    (get_true_compute m s).awa =
      if s.awa > 180 then s.awa - 360 else if s.awa < -180 then s.awa + 360 else s.awa := by
  rw [out_awa, adjusted_noop m s h, half_circle_awa]

theorem out_aws_noop (m : Libm α) (s : tw_input α) (h : s.roll = 0 ∨ s.pitch = 0) :
    (get_true_compute m s).aws = s.aws := by
  rw [out_aws, adjusted_noop m s h]
  exact (half_circle_rest s).2.2.2.1

theorem out_leeway (m : Libm α) (s0 : tw_input α) :
    (get_true_compute m s0).leeway =
      if s0.bspd = 0 ∨ s0.roll = 0 ∨ s0.K = 0 ∨
          (s0.roll > 0 ∧ (get_true_compute m s0).awa > 0) ∨
          (s0.roll < 0 ∧ (get_true_compute m s0).awa < 0) then 0
      else if leeway_quotient s0 > 45 then 45
      else if leeway_quotient s0 < -45 then -45
      else leeway_quotient s0 := by
  obtain ⟨e1, -, -, -, -, e7, -, e9, e10⟩ := adjusted_rest m s0
  unfold leeway_quotient
  rw [out_awa, ← e1, ← e7, ← e9, ← e10]
  simp only [← strcmp_eq_zero_iff]
  rfl

theorem out_leeway_bounds (m : Libm α) (s : tw_input α) :
    -45 ≤ (get_true_compute m s).leeway ∧ (get_true_compute m s).leeway ≤ 45 := by
  rw [out_leeway]
  split_ifs with a b c
  · constructor <;> norm_num
  · constructor <;> norm_num
  · constructor <;> norm_num
  · push_neg at b c
    exact ⟨c, b⟩

theorem out_stw (m : Libm α) (s0 : tw_input α) :
    (get_true_compute m s0).stw =
      s0.bspd / m.cos ((get_true_compute m s0).leeway * DEG_TO_RAD) := by
  obtain ⟨e1, -⟩ := adjusted_rest m s0
  rw [← e1]
  rfl

theorem out_tws (m : Libm α) (s0 : tw_input α) :
    (get_true_compute m s0).tws =
      m.sqrt (tws_x m s0 * tws_x m s0 + tws_y m s0 * tws_y m s0) := by
  obtain ⟨e1, -⟩ := adjusted_rest m s0
  unfold tws_x tws_y
  rw [← e1]
  rfl

theorem out_twa (m : Libm α) (s0 : tw_input α) :
    (get_true_compute m s0).twa =
      if tws_y m s0 = 0 ∧ tws_x m s0 = 0 then (get_true_compute m s0).awa
      else
        let twa := 270 - m.atan2 (tws_y m s0) (tws_x m s0) * RAD_TO_DEG
        let twa : α :=
          if (get_true_compute m s0).awa ≥ 0 then ((Int.tmod (c_int_cast twa) 360 : Int) : α)
          else twa - 360
        if twa > 180 then twa - 360 else if twa < -180 then twa + 360 else twa := by
  obtain ⟨e1, -⟩ := adjusted_rest m s0
  unfold tws_x tws_y
  rw [← e1]
  rfl

theorem out_twd (m : Libm α) (s0 : tw_input α) :
    (get_true_compute m s0).twd =
      (if s0.heading + (get_true_compute m s0).twa > 360 then
          s0.heading + (get_true_compute m s0).twa - 360
        else if s0.heading + (get_true_compute m s0).twa < 0 then
          s0.heading + (get_true_compute m s0).twa + 360
        else s0.heading + (get_true_compute m s0).twa) + s0.variation := by
  obtain ⟨-, -, -, e4, e5, -⟩ := adjusted_rest m s0
  rw [← e4, ← e5]
  rfl

theorem out_soc (m : Libm α) (s0 : tw_input α) :
    (get_true_compute m s0).soc =
      m.sqrt (curr_x m s0 * curr_x m s0 + curr_y m s0 * curr_y m s0) := by
  obtain ⟨-, e2, e3, e4, e5, -⟩ := adjusted_rest m s0
  unfold curr_x curr_y
  rw [← e2, ← e3, ← e4, ← e5]
  rfl

theorem out_doc (m : Libm α) (s0 : tw_input α) :
    (get_true_compute m s0).doc =
      (if m.isnan (m.atan2 (curr_y m s0) (curr_x m s0)) = true then
          (if curr_y m s0 < 0 then 180 else 0)
        else
          let doc := 90 - m.atan2 (curr_y m s0) (curr_x m s0) * RAD_TO_DEG
          if doc > 360 then doc - 360 else if doc < 0 then doc + 360 else doc) +
        s0.variation := by
  obtain ⟨-, e2, e3, e4, e5, -⟩ := adjusted_rest m s0
  unfold curr_x curr_y
  rw [← e2, ← e3, ← e4, ← e5]
  rfl

/-- With no apparent wind, no boat speed and no attitude correction the true wind vector is
zero and `twa` is the adjusted apparent wind angle. -/
theorem out_twa_calm (m : Libm α) (s : tw_input α) (ha : s.aws = 0) (hb : s.bspd = 0)
    (hatt : s.roll = 0 ∨ s.pitch = 0) :
    (get_true_compute m s).twa =
      if s.awa > 180 then s.awa - 360 else if s.awa < -180 then s.awa + 360 else s.awa := by
  have hstw : (get_true_compute m s).stw = 0 := by rw [out_stw, hb, zero_div]
  have hx : tws_x m s = 0 := by
    unfold tws_x
    rw [out_aws_noop m s hatt, ha, hstw, zero_mul, zero_mul, add_zero]
  have hy : tws_y m s = 0 := by
    unfold tws_y
    rw [out_aws_noop m s hatt, ha, hb, zero_mul, add_zero]
  rw [out_twa, if_pos ⟨hy, hx⟩, out_awa_noop m s hatt]

theorem out_vmg (m : Libm α) (s0 : tw_input α) :
    (get_true_compute m s0).vmg =
      (get_true_compute m s0).stw *
        m.cos ((-(get_true_compute m s0).twa + (get_true_compute m s0).leeway) * DEG_TO_RAD) :=
  rfl

theorem tw_output_ext (a b : tw_output α) (h1 : a.awa = b.awa) (h2 : a.aws = b.aws)
    (h3 : a.leeway = b.leeway) (h4 : a.stw = b.stw) (h5 : a.vmg = b.vmg) (h6 : a.tws = b.tws)
    (h7 : a.twa = b.twa) (h8 : a.twd = b.twd) (h9 : a.soc = b.soc) (h10 : a.doc = b.doc) :
    a = b := by
  cases a; cases b; simp_all

/-- The attitude correction leaves a zero apparent wind speed at zero. -/
theorem out_aws_zero (m : Libm α) (s : tw_input α) (ha : s.aws = 0) :
    (get_true_compute m s).aws = 0 := by
  have h0 : (half_circle s).aws = 0 := (half_circle_rest s).2.2.2.1.trans ha
  rw [out_aws, adjusted]
  by_cases h : (half_circle s).roll = 0 ∨ (half_circle s).pitch = 0
  · rw [getAttitudeCorrections_noop m _ h, h0]
  · simp [getAttitudeCorrections, h, h0]

theorem get_true_compute_speedunit (m : Libm α) (s : tw_input α) (u : String) (hK : s.K = 0) :
    get_true_compute m { s with speedunit := u } = get_true_compute m s := by
  obtain ⟨ha, hs⟩ := adjusted_speedunit m s u
  have e1 : (get_true_compute m { s with speedunit := u }).awa = (get_true_compute m s).awa := ha
  have e2 : (get_true_compute m { s with speedunit := u }).aws = (get_true_compute m s).aws := hs
  have e3 : (get_true_compute m { s with speedunit := u }).leeway =
      (get_true_compute m s).leeway := by
    rw [out_leeway, out_leeway, if_pos (Or.inr (Or.inr (Or.inl hK))),
      if_pos (Or.inr (Or.inr (Or.inl hK)))]
  have e4 : (get_true_compute m { s with speedunit := u }).stw = (get_true_compute m s).stw := by
    rw [out_stw, out_stw, e3]
  have ex : tws_x m { s with speedunit := u } = tws_x m s := by
    unfold tws_x; rw [e1, e2, e3, e4]
  have ey : tws_y m { s with speedunit := u } = tws_y m s := by
    unfold tws_y; rw [e1, e2]
  have e6 : (get_true_compute m { s with speedunit := u }).tws = (get_true_compute m s).tws := by
    rw [out_tws, out_tws, ex, ey]
  have e7 : (get_true_compute m { s with speedunit := u }).twa = (get_true_compute m s).twa := by
    rw [out_twa, out_twa, ex, ey, e1]
  have e5 : (get_true_compute m { s with speedunit := u }).vmg = (get_true_compute m s).vmg := by
    rw [out_vmg, out_vmg, e3, e4, e7]
  have e8 : (get_true_compute m { s with speedunit := u }).twd = (get_true_compute m s).twd := by
    rw [out_twd, out_twd, e7]
  have ecx : curr_x m { s with speedunit := u } = curr_x m s := by
    unfold curr_x; rw [e3, e4]
  have ecy : curr_y m { s with speedunit := u } = curr_y m s := by
    unfold curr_y; rw [e3, e4]
  have e9 : (get_true_compute m { s with speedunit := u }).soc = (get_true_compute m s).soc := by
    rw [out_soc, out_soc, ecx, ecy]
  have e10 : (get_true_compute m { s with speedunit := u }).doc = (get_true_compute m s).doc := by
    rw [out_doc, out_doc, ecx, ecy]
  exact tw_output_ext _ _ e1 e2 e3 e4 e5 e6 e7 e8 e9 e10

theorem out_twa_raw (m : Libm α) (s0 : tw_input α) :
    (get_true_compute m s0).twa =
      if tws_y m s0 = 0 ∧ tws_x m s0 = 0 then (get_true_compute m s0).awa
      else if (get_true_compute m s0).awa ≥ 0 then
        (if ((Int.tmod (c_int_cast (twa_raw m s0)) 360 : Int) : α) > 180 then
          ((Int.tmod (c_int_cast (twa_raw m s0)) 360 : Int) : α) - 360
        else if ((Int.tmod (c_int_cast (twa_raw m s0)) 360 : Int) : α) < -180 then
          ((Int.tmod (c_int_cast (twa_raw m s0)) 360 : Int) : α) + 360
        else ((Int.tmod (c_int_cast (twa_raw m s0)) 360 : Int) : α))
      else
        (if twa_raw m s0 - 360 > 180 then twa_raw m s0 - 360 - 360
        else if twa_raw m s0 - 360 < -180 then twa_raw m s0 - 360 + 360
        else twa_raw m s0 - 360) := by
  rw [out_twa]
  unfold twa_raw
  by_cases h0 : tws_y m s0 = 0 ∧ tws_x m s0 = 0
  · rw [if_pos h0, if_pos h0]
  · rw [if_neg h0, if_neg h0]
    by_cases h : (get_true_compute m s0).awa ≥ 0
    · simp only [if_pos h]
    · simp only [if_neg h]

end Fields

/-! ## Lemmas: the real interpretation of `<math.h>` -/

section RealModel

open Real

theorem PI_lt_pi : (PI : ℝ) < π := by
  have := Real.pi_gt_d20
  unfold PI
  norm_num at this ⊢
  linarith

theorem DEG_TO_RAD_pos : (0 : ℝ) < DEG_TO_RAD := by unfold DEG_TO_RAD PI; norm_num

theorem RAD_TO_DEG_pos : (0 : ℝ) < RAD_TO_DEG := by unfold RAD_TO_DEG PI; norm_num

theorem pi_mul_RAD_TO_DEG_lt : π * RAD_TO_DEG < 181 := by
  have h := Real.pi_lt_d4
  unfold RAD_TO_DEG PI
  norm_num at h ⊢
  linarith

@[simp] theorem realLibm_cos (x : ℝ) : realLibm.cos x = Real.cos x := rfl

@[simp] theorem realLibm_sin (x : ℝ) : realLibm.sin x = Real.sin x := rfl

@[simp] theorem realLibm_sqrt (x : ℝ) : realLibm.sqrt x = Real.sqrt x := rfl

@[simp] theorem realLibm_isnan (x : ℝ) : realLibm.isnan x = false := rfl

theorem realLibm_atan2 (y x : ℝ) : realLibm.atan2 y x = Complex.arg (Complex.mk x y) := rfl

@[simp] theorem realLibm_atan2_zero : realLibm.atan2 0 0 = 0 := by
  rw [realLibm_atan2]
  exact Complex.arg_zero

theorem atan2_deg_bounds (y x : ℝ) :
    -181 < realLibm.atan2 y x * RAD_TO_DEG ∧ realLibm.atan2 y x * RAD_TO_DEG < 181 := by
  rw [realLibm_atan2]
  have h1 := Complex.neg_pi_lt_arg (Complex.mk x y)
  have h2 := Complex.arg_le_pi (Complex.mk x y)
  have hR := RAD_TO_DEG_pos
  have hπ := pi_mul_RAD_TO_DEG_lt
  constructor
  · nlinarith
  · nlinarith

theorem cos_leeway_pos (s : tw_input ℝ) :
    0 < Real.cos ((get_true_compute realLibm s).leeway * DEG_TO_RAD) := by
  obtain ⟨h1, h2⟩ := out_leeway_bounds realLibm s
  have hπ := Real.pi_gt_three
  apply Real.cos_pos_of_mem_Ioo
  unfold DEG_TO_RAD PI
  constructor
  · norm_num; linarith
  · norm_num; linarith

theorem sqrt_sq_add_sq_eq_zero_iff (x y : ℝ) :
    Real.sqrt (x * x + y * y) = 0 ↔ x = 0 ∧ y = 0 := by
  rw [Real.sqrt_eq_zero (add_nonneg (mul_self_nonneg x) (mul_self_nonneg y))]
  constructor
  · intro h
    constructor <;> nlinarith [mul_self_nonneg x, mul_self_nonneg y]
  · rintro ⟨rfl, rfl⟩; ring

theorem out_tws_eq_zero_iff (s : tw_input ℝ) :
    (get_true_compute realLibm s).tws = 0 ↔ tws_x realLibm s = 0 ∧ tws_y realLibm s = 0 := by
  rw [out_tws, realLibm_sqrt, sqrt_sq_add_sq_eq_zero_iff]

theorem out_soc_eq_zero_iff (s : tw_input ℝ) :
    (get_true_compute realLibm s).soc = 0 ↔
      curr_x realLibm s = 0 ∧ curr_y realLibm s = 0 := by
  rw [out_soc, realLibm_sqrt, sqrt_sq_add_sq_eq_zero_iff]

/-- The value `(int) t % 360` of line 118 lies in `[0, 359]` when `t` is not negative. -/
theorem trunc_mod_bounds (t : ℝ) (h0 : 0 ≤ t) :
    (0 : ℝ) ≤ ((Int.tmod (c_int_cast t) 360 : Int) : ℝ) ∧
      ((Int.tmod (c_int_cast t) 360 : Int) : ℝ) ≤ 359 := by
  have hc : c_int_cast t = ⌊t⌋ := by unfold c_int_cast; rw [if_pos h0]
  have hn : (0 : Int) ≤ ⌊t⌋ := Int.floor_nonneg.mpr h0
  have h1 : 0 ≤ Int.tmod ⌊t⌋ 360 := Int.tmod_nonneg 360 hn
  have h2 : Int.tmod ⌊t⌋ 360 < 360 := Int.tmod_lt_of_pos _ (by norm_num)
  rw [hc]
  constructor
  · exact_mod_cast h1
  · have : Int.tmod ⌊t⌋ 360 ≤ 359 := by omega
    exact_mod_cast this

theorem cos_two_PI_pos : 0 < Real.cos (2 * (PI : ℝ)) := by
  have h1 := PI_lt_pi
  have h2 := Real.pi_lt_d2
  have h3 := Real.pi_gt_three
  have hP : (PI : ℝ) = 3.14159265 := rfl
  rw [← Real.cos_sub_two_pi]
  apply Real.cos_pos_of_mem_Ioo
  constructor
  · rw [hP]; norm_num at h2 ⊢; linarith
  · linarith

theorem atan2_sin_cos (θ : ℝ) (h1 : -π < θ) (h2 : θ ≤ π) :
    realLibm.atan2 (Real.sin θ) (Real.cos θ) = θ := by
  rw [realLibm_atan2]
  have e : Complex.mk (Real.cos θ) (Real.sin θ) = Complex.cos θ + Complex.sin θ * Complex.I := by
    apply Complex.ext
    · simp [Complex.cos_ofReal_re, Complex.sin_ofReal_re, Complex.sin_ofReal_im]
    · simp [Complex.cos_ofReal_im, Complex.sin_ofReal_re]
  rw [e]
  exact Complex.arg_cos_add_sin_mul_I ⟨h1, h2⟩

/-- After an attitude correction (roll and pitch both non-zero) the apparent wind angle is
never negative: line 229 adds 360 to a negative angle. -/
theorem getAttitudeCorrections_awa_nonneg (src : tw_input ℝ) (hr : src.roll ≠ 0)
    (hp : src.pitch ≠ 0) (ha : -360 ≤ src.awa) :
    0 ≤ (getAttitudeCorrections realLibm src).awa := by
  have hatt : ¬ (src.roll = 0 ∨ src.pitch = 0) := by tauto
  simp only [getAttitudeCorrections, if_neg hatt]
  generalize hA : realLibm.atan2 _ _ * RAD_TO_DEG = A
  have hA1 : -181 < A := hA ▸ (atan2_deg_bounds _ _).1
  split_ifs <;> linarith

theorem cos_leeway_ge (s : tw_input ℝ) :
    1 / Real.sqrt 2 ≤ Real.cos ((get_true_compute realLibm s).leeway * DEG_TO_RAD) := by
  obtain ⟨h1, h2⟩ := out_leeway_bounds realLibm s
  have hP := PI_lt_pi
  have hD : (DEG_TO_RAD : ℝ) = PI / 180 := by unfold DEG_TO_RAD; norm_num
  have hPpos : (0 : ℝ) < PI := by unfold PI; norm_num
  have habs : |(get_true_compute realLibm s).leeway * DEG_TO_RAD| ≤ π / 4 := by
    rw [abs_le, hD]
    constructor
    · nlinarith
    · nlinarith
  have h := Real.cos_le_cos_of_nonneg_of_le_pi (abs_nonneg _) (by linarith [Real.pi_pos]) habs
  rw [Real.cos_abs, Real.cos_pi_div_four] at h
  have e : 1 / Real.sqrt 2 = Real.sqrt 2 / 2 := by
    rw [div_eq_div_iff (by positivity) (by norm_num)]
    nlinarith [Real.sq_sqrt (show (0:ℝ) ≤ 2 by norm_num)]
  rw [e]
  exact h

theorem cos_sq_law (a b x y : ℝ) :
    (a * Real.cos x - b * Real.cos y) * (a * Real.cos x - b * Real.cos y) +
      (a * Real.sin x - b * Real.sin y) * (a * Real.sin x - b * Real.sin y) =
    a ^ 2 + b ^ 2 - 2 * a * b * Real.cos (y - x) := by
  rw [Real.cos_sub]
  nlinarith [Real.sin_sq_add_cos_sq x, Real.sin_sq_add_cos_sq y]

theorem twa_raw_bounds (s : tw_input ℝ) : 89 < twa_raw realLibm s ∧ twa_raw realLibm s < 451 := by
  obtain ⟨h1, h2⟩ := atan2_deg_bounds (tws_y realLibm s) (tws_x realLibm s)
  unfold twa_raw
  constructor <;> linarith

/-- With no attitude correction, no leeway and `awa` in [-180, 180], the true wind vector is the
apparent wind vector plus the boat speed along the y-axis. -/
theorem tws_vector_plain (s : tw_input ℝ) (hroll : s.roll = 0) (h1 : -180 ≤ s.awa)
    (h2 : s.awa ≤ 180) :
    (get_true_compute realLibm s).awa = s.awa ∧
      tws_x realLibm s = s.aws * Real.cos ((270 - s.awa) * DEG_TO_RAD) ∧
      tws_y realLibm s = s.aws * Real.sin ((270 - s.awa) * DEG_TO_RAD) + s.bspd := by
  have hawa : (get_true_compute realLibm s).awa = s.awa := by
    rw [out_awa_noop _ _ (Or.inl hroll), if_neg (not_lt.mpr h2), if_neg (not_lt.mpr h1)]
  have haws : (get_true_compute realLibm s).aws = s.aws := out_aws_noop _ _ (Or.inl hroll)
  have hl : (get_true_compute realLibm s).leeway = 0 := by
    rw [out_leeway, if_pos (Or.inr (Or.inl hroll))]
  refine ⟨hawa, ?_, ?_⟩
  · unfold tws_x
    rw [haws, hawa, hl]
    simp
  · unfold tws_y
    rw [haws, hawa]
    simp

theorem DEG_mul_RAD : (DEG_TO_RAD : ℝ) * RAD_TO_DEG = 1 := by
  unfold DEG_TO_RAD RAD_TO_DEG PI
  norm_num

theorem two_pi_RAD_bounds :
    360 < 2 * π * (RAD_TO_DEG : ℝ) ∧ 2 * π * (RAD_TO_DEG : ℝ) < 360 + 0.000001 := by
  have h1 := Real.pi_gt_d20
  have h2 := Real.pi_lt_d20
  unfold RAD_TO_DEG PI
  norm_num at h1 h2 ⊢
  constructor <;> linarith

theorem atan2_polar (r φ : ℝ) (hr : 0 < r) (h1 : -π < φ) (h2 : φ ≤ π) :
    realLibm.atan2 (r * Real.sin φ) (r * Real.cos φ) = φ := by
  rw [realLibm_atan2]
  have e : Complex.mk (r * Real.cos φ) (r * Real.sin φ) =
      (r : ℂ) * (Complex.cos φ + Complex.sin φ * Complex.I) := by
    apply Complex.ext
    · simp [Complex.cos_ofReal_re, Complex.sin_ofReal_re, Complex.sin_ofReal_im,
        Complex.cos_ofReal_im]
    · simp [Complex.cos_ofReal_re, Complex.sin_ofReal_re, Complex.sin_ofReal_im,
        Complex.cos_ofReal_im]
  rw [e]
  exact Complex.arg_mul_cos_add_sin_mul_I hr ⟨h1, h2⟩

/-- The untruncated angle of line 116 when the true wind vector has length `T > 0` and direction
`(270 - θ) * DEG_TO_RAD`: it is `θ`, or `θ` plus `2 * π * RAD_TO_DEG` (a little over 360). -/
theorem twa_raw_polar (s : tw_input ℝ) (T θ : ℝ) (hT : 0 < T) (h1 : -180 < θ) (h2 : θ ≤ 180)
    (hx : tws_x realLibm s = T * Real.cos ((270 - θ) * DEG_TO_RAD))
    (hy : tws_y realLibm s = T * Real.sin ((270 - θ) * DEG_TO_RAD)) :
    ¬ (tws_y realLibm s = 0 ∧ tws_x realLibm s = 0) ∧
      ((twa_raw realLibm s = θ ∧ 89 < θ) ∨
        (twa_raw realLibm s = θ + 2 * π * RAD_TO_DEG ∧ θ < 91)) := by
  have hDR := DEG_mul_RAD
  have hD : (DEG_TO_RAD : ℝ) = PI / 180 := by unfold DEG_TO_RAD; norm_num
  have hPpos : (0 : ℝ) < PI := by unfold PI; norm_num
  have hP := PI_lt_pi
  have hπ := Real.pi_pos
  have hR := RAD_TO_DEG_pos
  have hπR := pi_mul_RAD_TO_DEG_lt
  obtain ⟨hb1, hb2⟩ := two_pi_RAD_bounds
  constructor
  · rw [hx, hy]
    rintro ⟨e1, e2⟩
    have := Real.sin_sq_add_cos_sq ((270 - θ) * DEG_TO_RAD)
    have e1' : Real.sin ((270 - θ) * DEG_TO_RAD) = 0 := by
      rcases mul_eq_zero.mp e1 with h | h
      · exact absurd h (ne_of_gt hT)
      · exact h
    have e2' : Real.cos ((270 - θ) * DEG_TO_RAD) = 0 := by
      rcases mul_eq_zero.mp e2 with h | h
      · exact absurd h (ne_of_gt hT)
      · exact h
    rw [e1', e2'] at this
    norm_num at this
  · unfold twa_raw
    rw [hx, hy]
    set φ := (270 - θ) * (DEG_TO_RAD : ℝ) with hφ
    have hφ0 : 0 < φ := by rw [hφ, hD]; apply mul_pos <;> [linarith; positivity]
    have hφR : φ * RAD_TO_DEG = 270 - θ := by rw [hφ, mul_assoc, hDR, mul_one]
    by_cases hc : φ ≤ π
    · left
      rw [atan2_polar T φ hT (by linarith) hc, hφR]
      refine ⟨by ring, ?_⟩
      have : φ * RAD_TO_DEG ≤ π * RAD_TO_DEG := mul_le_mul_of_nonneg_right hc hR.le
      linarith
    · right
      push_neg at hc
      have hlt : φ < 3 * π := by
        rw [hφ, hD]
        nlinarith
      have hs : Real.sin φ = Real.sin (φ - 2 * π) := (Real.sin_sub_two_pi φ).symm
      have hco : Real.cos φ = Real.cos (φ - 2 * π) := (Real.cos_sub_two_pi φ).symm
      rw [hs, hco, atan2_polar T (φ - 2 * π) hT (by linarith) (by linarith)]
      refine ⟨by rw [sub_mul, hφR]; ring, ?_⟩
      have : π * RAD_TO_DEG < φ * RAD_TO_DEG := mul_lt_mul_of_pos_right hc hR
      linarith

/-- The truncation of lines 117-118: when the true wind vector is not zero and the adjusted
apparent wind angle is not negative, `twa` is a whole number `n` in (-180, 180], and the
untruncated angle lies in `[n + 360 k, n + 360 k + 1)` for some whole `k`. -/
theorem twa_truncated_spec (s : tw_input ℝ)
    (hne : ¬ (tws_y realLibm s = 0 ∧ tws_x realLibm s = 0))
    (hawa : 0 ≤ (get_true_compute realLibm s).awa) :
    (get_true_compute realLibm s).twa =
        (if Int.tmod (c_int_cast (twa_raw realLibm s)) 360 > 180 then
          ((Int.tmod (c_int_cast (twa_raw realLibm s)) 360 - 360 : ℤ) : ℝ)
        else ((Int.tmod (c_int_cast (twa_raw realLibm s)) 360 : ℤ) : ℝ)) ∧
      ∃ n k : ℤ, (get_true_compute realLibm s).twa = (n : ℝ) ∧ -180 < n ∧ n ≤ 180 ∧
        (n : ℝ) + 360 * (k : ℝ) ≤ twa_raw realLibm s ∧
        twa_raw realLibm s < (n : ℝ) + 360 * (k : ℝ) + 1 := by
  obtain ⟨b1, b2⟩ := twa_raw_bounds s
  rw [out_twa_raw, if_neg hne, if_pos hawa]
  have hc : c_int_cast (twa_raw realLibm s) = ⌊twa_raw realLibm s⌋ := by
    unfold c_int_cast; rw [if_pos (by linarith)]
  have hn : (0 : ℤ) ≤ ⌊twa_raw realLibm s⌋ := Int.floor_nonneg.mpr (by linarith)
  have hfl := Int.floor_le (twa_raw realLibm s)
  have hfl2 := Int.lt_floor_add_one (twa_raw realLibm s)
  rw [hc, Int.tmod_eq_emod hn (by norm_num)]
  have hr0 : 0 ≤ ⌊twa_raw realLibm s⌋ % 360 := Int.emod_nonneg _ (by norm_num)
  have hr1 : ⌊twa_raw realLibm s⌋ % 360 < 360 := Int.emod_lt_of_pos _ (by norm_num)
  have hdiv := Int.emod_add_ediv ⌊twa_raw realLibm s⌋ 360
  generalize ⌊twa_raw realLibm s⌋ = n at *
  generalize hr : n % 360 = r at *
  generalize n / 360 = q at *
  have hnr : (n : ℝ) = (r : ℝ) + 360 * (q : ℝ) := by
    rw [← hdiv]; push_cast; ring
  have hr0' : (0 : ℝ) ≤ (r : ℝ) := by exact_mod_cast hr0
  by_cases hbig : r > 180
  · have hbig' : (r : ℝ) > 180 := by exact_mod_cast hbig
    rw [if_pos hbig', if_pos hbig]
    refine ⟨by push_cast; ring, r - 360, q + 1, by push_cast; ring, by omega, by omega, ?_, ?_⟩
    · push_cast; linarith
    · push_cast; linarith
  · have hbig' : ¬ ((r : ℝ) > 180) := by
      intro h; apply hbig; exact_mod_cast h
    rw [if_neg hbig', if_neg (by linarith), if_neg hbig]
    refine ⟨rfl, r, q, rfl, by omega, by omega, ?_, ?_⟩
    · linarith
    · linarith

end RealModel

/-! ## Claims C1-C10 -/

section Claims

variable {α : Type} [LinearOrderedField α] [FloorRing α]

/-- Claim C1: `get_true` takes its validation-failure path (it writes the diagnostic to
`stderr`) exactly when `K` is non-zero and `speedunit` is neither "kt" nor "m/s"; on that path
the returned record has all ten fields zero; every other input goes through the computation of
lines 50-173 and writes nothing. -/
theorem C1_validation_path (m : Libm α) (s : tw_input α) :
    ((get_true m s).2 = [speedunit_message] ↔
        (s.K ≠ 0 ∧ s.speedunit ≠ "kt" ∧ s.speedunit ≠ "m/s")) ∧
      ((s.K ≠ 0 ∧ s.speedunit ≠ "kt" ∧ s.speedunit ≠ "m/s") →
        (get_true m s).1 = ⟨0, 0, 0, 0, 0, 0, 0, 0, 0, 0⟩) ∧
      (¬ (s.K ≠ 0 ∧ s.speedunit ≠ "kt" ∧ s.speedunit ≠ "m/s") →
        get_true m s = (get_true_compute m s, [])) := by
  by_cases hv : s.K ≠ 0 ∧ s.speedunit ≠ "kt" ∧ s.speedunit ≠ "m/s"
  · rw [get_true_fail m s hv]
    exact ⟨⟨fun _ => hv, fun _ => rfl⟩, fun _ => rfl, fun h => absurd hv h⟩
  · have hp : s.K = 0 ∨ s.speedunit = "kt" ∨ s.speedunit = "m/s" := by tauto
    rw [get_true_pass m s hp]
    refine ⟨⟨fun h => ?_, fun h => absurd h hv⟩, fun h => absurd h hv, fun _ => rfl⟩
    exact absurd h (by simp)

/-- Claim C2, refuted: `failing_input` fails validation, `becalmed_input` passes it, and
`get_true` returns the same all-zero record for both. -/
theorem C2_counterexample :
    ((failing_input : tw_input ℝ).K ≠ 0 ∧ (failing_input : tw_input ℝ).speedunit ≠ "kt" ∧
        (failing_input : tw_input ℝ).speedunit ≠ "m/s") ∧
      (becalmed_input : tw_input ℝ).K = 0 ∧
      (get_true realLibm failing_input).1 = (get_true realLibm becalmed_input).1 := by
  refine ⟨⟨by norm_num [failing_input], by decide, by decide⟩, rfl, ?_⟩
  rw [get_true_fail realLibm failing_input ⟨by norm_num [failing_input], by decide, by decide⟩,
    get_true_pass realLibm becalmed_input (Or.inl rfl)]
  norm_num [get_true_compute, getAttitudeCorrections, tout_zero, becalmed_input]

/-- Claim C2, amended: a validation failure is reported on `stderr` only. A failing input
writes the diagnostic and a passing input writes nothing; the record returned on failure is
all zero, and it differs from the record returned for every passing input with `bspd ≠ 0`. -/
theorem C2_failure_report (s s' : tw_input ℝ)
    (hfail : s.K ≠ 0 ∧ s.speedunit ≠ "kt" ∧ s.speedunit ≠ "m/s")
    (hpass : s'.K = 0 ∨ s'.speedunit = "kt" ∨ s'.speedunit = "m/s") :
    (get_true realLibm s).1 = ⟨0, 0, 0, 0, 0, 0, 0, 0, 0, 0⟩ ∧
      (get_true realLibm s).2 = [speedunit_message] ∧ (get_true realLibm s').2 = [] ∧
      (s'.bspd ≠ 0 → (get_true realLibm s).1 ≠ (get_true realLibm s').1) := by
  rw [get_true_fail realLibm s hfail, get_true_pass realLibm s' hpass]
  refine ⟨rfl, rfl, rfl, fun hb heq => ?_⟩
  have hstw : (get_true_compute realLibm s').stw = 0 := by
    rw [← show (tout_zero : tw_output ℝ) = get_true_compute realLibm s' from heq]
    rfl
  rw [out_stw, realLibm_cos, div_eq_zero_iff] at hstw
  rcases hstw with h | h
  · exact hb h
  · exact absurd h (ne_of_gt (cos_leeway_pos s'))

/-- Witness of `C2_failure_report`: `failing_input` against the input of `test.c`. -/
theorem C2_failure_report_witness :
    (get_true realLibm (failing_input : tw_input ℝ)).2 = [speedunit_message] ∧
      (get_true realLibm (reference_input : tw_input ℝ)).2 = [] ∧
      (get_true realLibm (failing_input : tw_input ℝ)).1 ≠
        (get_true realLibm (reference_input : tw_input ℝ)).1 :=
  have h := C2_failure_report failing_input reference_input
    ⟨by norm_num [failing_input], by decide, by decide⟩ (Or.inl rfl)
  ⟨h.2.1, h.2.2.1, h.2.2.2 (by norm_num [reference_input])⟩

/-- Claim C3, refuted: with no attitude correction an input `awa` of -180 is returned as -180,
which is outside (-180, 180], and an input `awa` of 1000 is returned as 640. -/
theorem C3_counterexample :
    (get_true realLibm (calm_input (-180) 0)).1.awa = -180 ∧
      (get_true realLibm (calm_input 1000 0)).1.awa = 640 := by
  rw [get_true_pass realLibm _ (Or.inl rfl), get_true_pass realLibm _ (Or.inl rfl),
    out_awa_noop _ _ (Or.inl rfl), out_awa_noop _ _ (Or.inl rfl)]
  norm_num [calm_input]

/-- Claim C3, amended: for an input that passes validation with `roll = 0` or `pitch = 0`, the
returned `awa` differs from the input `awa` by a multiple of 360 (one step of 360 at most is
applied); it lies in [-180, 180] when the input `awa` lies in [-540, 540], and in (-180, 180]
when moreover the input `awa` is neither -540 nor -180; 270 gives -90, -270 gives 90 and 180
stays 180. -/
theorem C3_awa_half_circle (m : Libm α) (s : tw_input α)
    (hv : s.K = 0 ∨ s.speedunit = "kt" ∨ s.speedunit = "m/s")
    (hatt : s.roll = 0 ∨ s.pitch = 0) :
    (∃ k : ℤ, (get_true m s).1.awa = s.awa + 360 * (k : α)) ∧
      (-540 ≤ s.awa → s.awa ≤ 540 →
        -180 ≤ (get_true m s).1.awa ∧ (get_true m s).1.awa ≤ 180) ∧
      (-540 < s.awa → s.awa ≤ 540 → s.awa ≠ -180 →
        -180 < (get_true m s).1.awa ∧ (get_true m s).1.awa ≤ 180) ∧
      (s.awa = 270 → (get_true m s).1.awa = -90) ∧
      (s.awa = -270 → (get_true m s).1.awa = 90) ∧
      (s.awa = 180 → (get_true m s).1.awa = 180) := by
  rw [get_true_pass m s hv]
  simp only [out_awa_noop m s hatt]
  refine ⟨?_, ?_, ?_, ?_, ?_, ?_⟩
  · split_ifs
    · exact ⟨-1, by push_cast; ring⟩
    · exact ⟨1, by push_cast; ring⟩
    · exact ⟨0, by push_cast; ring⟩
  · intro h1 h2
    split_ifs with a b <;> constructor <;> linarith
  · intro h1 h2 h3
    split_ifs with a b
    · constructor <;> linarith
    · constructor <;> linarith
    · push_neg at a b
      exact ⟨lt_of_le_of_ne b (Ne.symm h3), a⟩
  · intro h; rw [h]; norm_num
  · intro h; rw [h]; norm_num
  · intro h; rw [h]; norm_num

/-- Witness of `C3_awa_half_circle`: the all-zero input with `awa = 270` returns -90. -/
theorem C3_awa_half_circle_witness :
    (get_true realLibm (calm_input 270 0)).1.awa = -90 :=
  (C3_awa_half_circle realLibm (calm_input 270 0) (Or.inl rfl) (Or.inl rfl)).2.2.2.1 rfl

/-- Claim C4, evaluated at a failing input: the boat heels to the left (`roll = -10`) with the
wind from the left (`awa = -45`, already in (-180, 180]) and `pitch = 5`; `get_true` returns
the leeway -4, not 0. The attitude correction has turned the angle into [0, 360), so the test
`s.awa < 0` of line 68 is false. -/
theorem C4_heeling_left_wind_left :
    (heeling_input (-10) 5 : tw_input ℝ).roll < 0 ∧
      -180 < (heeling_input (-10) 5 : tw_input ℝ).awa ∧
      (heeling_input (-10) 5 : tw_input ℝ).awa < 0 ∧
      0 ≤ (get_true realLibm (heeling_input (-10) 5)).1.awa ∧
      (get_true realLibm (heeling_input (-10) 5)).1.leeway = -4 := by
  have hawa : 0 ≤ (get_true_compute realLibm (heeling_input (-10) 5)).awa := by
    rw [out_awa, adjusted]
    have e : half_circle (heeling_input (-10) 5 : tw_input ℝ) = heeling_input (-10) 5 := by
      norm_num [half_circle, heeling_input]
    rw [e]
    apply getAttitudeCorrections_awa_nonneg <;> norm_num [heeling_input]
  rw [get_true_pass realLibm _ (Or.inr (Or.inl rfl))]
  refine ⟨by norm_num [heeling_input], by norm_num [heeling_input],
    by norm_num [heeling_input], hawa, ?_⟩
  rw [out_leeway, if_neg]
  · norm_num [leeway_quotient, heeling_input]
  · rintro (h | h | h | ⟨h, -⟩ | ⟨-, h⟩)
    · norm_num [heeling_input] at h
    · norm_num [heeling_input] at h
    · norm_num [heeling_input] at h
    · norm_num [heeling_input] at h
    · exact absurd h (not_lt.mpr hawa)

/-- The sibling path of claim C4: with `pitch = 0` (no attitude correction) and `awa` in
[-180, 180], heeling into the wind gives leeway 0. -/
theorem leeway_zero_heeling_into_wind (m : Libm α) (s : tw_input α)
    (hv : s.K = 0 ∨ s.speedunit = "kt" ∨ s.speedunit = "m/s") (hp : s.pitch = 0)
    (h1 : -180 ≤ s.awa) (h2 : s.awa ≤ 180)
    (h : (s.roll > 0 ∧ s.awa > 0) ∨ (s.roll < 0 ∧ s.awa < 0)) :
    (get_true m s).1.leeway = 0 := by
  rw [get_true_pass m s hv, out_leeway, if_pos]
  rw [out_awa_noop m s (Or.inr hp), if_neg (not_lt.mpr h2), if_neg (not_lt.mpr h1)]
  tauto

/-- Claim C6: for every input, passing validation or not, `bspd = 0` or `roll = 0` or `K = 0`
gives a returned leeway of 0. -/
theorem C6_leeway_zero_cases (m : Libm α) (s : tw_input α)
    (h : s.bspd = 0 ∨ s.roll = 0 ∨ s.K = 0) : (get_true m s).1.leeway = 0 := by
  by_cases hv : s.K ≠ 0 ∧ s.speedunit ≠ "kt" ∧ s.speedunit ≠ "m/s"
  · rw [get_true_fail m s hv]; rfl
  · have hp : s.K = 0 ∨ s.speedunit = "kt" ∨ s.speedunit = "m/s" := by tauto
    rw [get_true_pass m s hp, out_leeway, if_pos]
    tauto

/-- Witness of `C6_leeway_zero_cases`: `failing_input` has `bspd = 0` (and fails validation). -/
theorem C6_leeway_zero_cases_witness :
    (failing_input : tw_input ℝ).bspd = 0 ∧ (get_true realLibm failing_input).1.leeway = 0 :=
  ⟨rfl, C6_leeway_zero_cases realLibm failing_input (Or.inl rfl)⟩

/-- The lower bound of `C7_twa_range` is attained in exact arithmetic: with `awa = -90` and a
true wind vector of direction `PI / 2` radians (so that `atan2 * RAD_TO_DEG` is exactly 90),
`get_true` returns `twa = -180`. The `aws` and `bspd` of this input are real numbers built
from sines and cosines, not decimal constants. -/
theorem twa_neg_180_attained :
    ∃ s : tw_input ℝ, s.K = 0 ∧ (get_true realLibm s).1.tws ≠ 0 ∧
      (get_true realLibm s).1.awa < 0 ∧ (get_true realLibm s).1.twa = -180 := by
  have hc := cos_two_PI_pos
  have hPpos : (0 : ℝ) < PI := by unfold PI; norm_num
  have hPpi := PI_lt_pi
  have hπ := Real.pi_pos
  let a : ℝ := Real.cos (PI / 2) / Real.cos (2 * PI)
  let b : ℝ := Real.sin (PI / 2) - a * Real.sin (2 * PI)
  let s : tw_input ℝ :=
    { bspd := b, sog := 0, cog := 0, aws := a, awa := -90, heading := 0, variation := 0,
      roll := 0, pitch := 0, K := 0, speedunit := "" }
  have hv : s.K = 0 ∨ s.speedunit = "kt" ∨ s.speedunit = "m/s" := Or.inl rfl
  have hawa : (get_true_compute realLibm s).awa = -90 := by
    rw [out_awa_noop _ _ (Or.inl rfl)]
    norm_num [s]
  have haws : (get_true_compute realLibm s).aws = a := out_aws_noop _ _ (Or.inl rfl)
  have hl : (get_true_compute realLibm s).leeway = 0 := by
    rw [out_leeway, if_pos]; right; left; rfl
  have hstw : (get_true_compute realLibm s).stw = b := by
    rw [out_stw, hl]
    simp [s]
  have hang : (270 - (-90 : ℝ)) * DEG_TO_RAD = 2 * PI := by
    unfold DEG_TO_RAD; norm_num; ring
  have hx : tws_x realLibm s = Real.cos (PI / 2) := by
    unfold tws_x
    rw [haws, hawa, hstw, hl, hang]
    simp only [realLibm_cos, realLibm_sin, zero_mul, Real.sin_zero, mul_zero, add_zero]
    exact div_mul_cancel₀ _ (ne_of_gt hc)
  have hy : tws_y realLibm s = Real.sin (PI / 2) := by
    unfold tws_y
    rw [haws, hawa, hang]
    simp only [realLibm_sin]
    show a * Real.sin (2 * PI) + b = _
    simp only [b]
    ring
  have hne : ¬ (tws_y realLibm s = 0 ∧ tws_x realLibm s = 0) := by
    rw [hx, hy]
    rintro ⟨h1, h2⟩
    have := Real.sin_sq_add_cos_sq (PI / 2)
    rw [h1, h2] at this
    norm_num at this
  refine ⟨s, rfl, ?_, ?_, ?_⟩
  · rw [get_true_pass _ _ hv]
    intro h
    rw [out_tws_eq_zero_iff] at h
    exact hne ⟨h.2, h.1⟩
  · rw [get_true_pass _ _ hv]
    show (get_true_compute realLibm s).awa < 0
    rw [hawa]; norm_num
  · rw [get_true_pass _ _ hv]
    show (get_true_compute realLibm s).twa = -180
    rw [out_twa, if_neg hne, hawa, hx, hy, atan2_sin_cos _ (by linarith) (by linarith)]
    have hR : (PI : ℝ) / 2 * RAD_TO_DEG = 90 := by
      unfold RAD_TO_DEG
      field_simp
      ring
    simp only [hR]
    norm_num

/-- Claim C10, what the code does: for an input that passes validation, if `sog = stw` and
`cog - variation = heading + leeway` then `soc = 0`; and whenever `soc = 0` (both components
of the current vector are zero) the direction of current before the variation is added is 90,
computed from `atan2 (0, 0) = 0`, and not the 0 of the default rule of lines 146-152. -/
theorem C10_zero_current (s : tw_input ℝ)
    (hv : s.K = 0 ∨ s.speedunit = "kt" ∨ s.speedunit = "m/s") :
    (s.sog = (get_true realLibm s).1.stw →
        s.cog - s.variation = s.heading + (get_true realLibm s).1.leeway →
        (get_true realLibm s).1.soc = 0) ∧
      ((get_true realLibm s).1.soc = 0 → (get_true realLibm s).1.doc - s.variation = 90) := by
  rw [get_true_pass _ _ hv]
  simp only []
  constructor
  · intro h1 h2
    rw [out_soc_eq_zero_iff]
    unfold curr_x curr_y
    rw [h1, h2]
    exact ⟨sub_self _, sub_self _⟩
  · intro h
    rw [out_soc_eq_zero_iff] at h
    rw [out_doc, h.1, h.2]
    norm_num

/-- Witness of `C10_zero_current`, the failing input of claim C10: `sog = bspd = 5`,
`cog = heading = 0`, everything else zero; `get_true` returns `soc = 0` and `doc = 90`. -/
theorem C10_zero_current_witness :
    (get_true realLibm no_current_input).1.soc = 0 ∧
      (get_true realLibm no_current_input).1.doc - (no_current_input : tw_input ℝ).variation
        = 90 := by
  have hv : (no_current_input : tw_input ℝ).K = 0 ∨
      (no_current_input : tw_input ℝ).speedunit = "kt" ∨
      (no_current_input : tw_input ℝ).speedunit = "m/s" := Or.inl rfl
  have hl : (get_true realLibm no_current_input).1.leeway = 0 := by
    rw [get_true_pass _ _ hv, out_leeway, if_pos]; right; left; rfl
  have hs : (get_true realLibm no_current_input).1.stw = 5 := by
    rw [get_true_pass _ _ hv] at hl ⊢
    simp only [] at hl ⊢
    rw [out_stw, hl]
    norm_num [no_current_input]
  have h := C10_zero_current no_current_input hv
  have hsoc := h.1 (by rw [hs]; rfl) (by rw [hl]; norm_num [no_current_input])
  exact ⟨hsoc, h.2 hsoc⟩

end Claims

/-! ## Claims C11-C20 -/

section Claims2

open Real

variable {α : Type} [LinearOrderedField α] [FloorRing α]

/-- Claim C11: for an input that passes validation with `aws = 0` and `bspd = 0`, for every
roll and pitch, `get_true` returns `tws = 0`, a `twa` equal to the `awa` field of the same
output, and leeway 0. -/
theorem C11_no_wind (s : tw_input ℝ)
    (hv : s.K = 0 ∨ s.speedunit = "kt" ∨ s.speedunit = "m/s")
    (ha : s.aws = 0) (hb : s.bspd = 0) :
    (get_true realLibm s).1.tws = 0 ∧
      (get_true realLibm s).1.twa = (get_true realLibm s).1.awa ∧
      (get_true realLibm s).1.leeway = 0 := by
  rw [get_true_pass _ _ hv]
  have hl : (get_true_compute realLibm s).leeway = 0 := by
    rw [out_leeway, if_pos (Or.inl hb)]
  have hstw : (get_true_compute realLibm s).stw = 0 := by rw [out_stw, hb, zero_div]
  have hx : tws_x realLibm s = 0 := by
    unfold tws_x
    rw [out_aws_zero _ _ ha, hstw, zero_mul, zero_mul, add_zero]
  have hy : tws_y realLibm s = 0 := by
    unfold tws_y
    rw [out_aws_zero _ _ ha, hb, zero_mul, add_zero]
  refine ⟨?_, ?_, hl⟩
  · exact (out_tws_eq_zero_iff s).mpr ⟨hx, hy⟩
  · show (get_true_compute realLibm s).twa = (get_true_compute realLibm s).awa
    rw [out_twa, if_pos ⟨hy, hx⟩]

/-- Witness of `C11_no_wind`: the all-zero input with `awa = 170`. -/
theorem C11_no_wind_witness :
    (get_true realLibm (calm_input 170 0)).1.tws = 0 ∧
      (get_true realLibm (calm_input 170 0)).1.twa =
        (get_true realLibm (calm_input 170 0)).1.awa :=
  have h := C11_no_wind (calm_input 170 0) (Or.inl rfl) rfl rfl
  ⟨h.1, h.2.1⟩

/-- Claim C12: for a wind reading with `roll = 0` or `pitch = 0`, `getAttitudeCorrections`
returns its argument in every field; the speed and the angle are those given, also when the
angle is negative or out of range. -/
theorem C12_attitude_identity (m : Libm α) (src : tw_input α)
    (h : src.roll = 0 ∨ src.pitch = 0) :
    getAttitudeCorrections m src = src ∧
      (getAttitudeCorrections m src).aws = src.aws ∧
      (getAttitudeCorrections m src).awa = src.awa := by
  rw [getAttitudeCorrections_noop m src h]
  exact ⟨rfl, rfl, rfl⟩

/-- Witness of `C12_attitude_identity`: the all-zero reading with `awa = -270`. -/
theorem C12_attitude_identity_witness :
    getAttitudeCorrections realLibm (calm_input (-270) 0) = calm_input (-270) 0 :=
  (C12_attitude_identity realLibm (calm_input (-270) 0) (Or.inl rfl)).1

/-! ### Numeric bounds for the input of `test.c` -/

theorem sqrt_two_bounds : (1.4142 : ℝ) < Real.sqrt 2 ∧ Real.sqrt 2 < 1.4143 := by
  constructor
  · rw [Real.lt_sqrt (by norm_num)]; norm_num
  · rw [Real.sqrt_lt' (by norm_num)]; norm_num

/-- Sine and cosine of the cartesian apparent wind angle `(270 - 45) * DEG_TO_RAD`. -/
theorem reference_angle_bounds :
    -0.7072 < Real.sin ((270 - 45) * (DEG_TO_RAD : ℝ)) ∧
      Real.sin ((270 - 45) * (DEG_TO_RAD : ℝ)) < -0.7070 ∧
      -0.7072 < Real.cos ((270 - 45) * (DEG_TO_RAD : ℝ)) ∧
      Real.cos ((270 - 45) * (DEG_TO_RAD : ℝ)) < -0.7070 := by
  obtain ⟨q1, q2⟩ := sqrt_two_bounds
  have hd1 : 0 < 1.25 * (π - PI) := by
    have := PI_lt_pi
    linarith
  have hd2 : 1.25 * (π - PI) < 0.00001 := by
    have := Real.pi_lt_d4
    unfold PI
    linarith
  have ht : (270 - 45) * (DEG_TO_RAD : ℝ) = (π / 4 - 1.25 * (π - PI)) + π := by
    unfold DEG_TO_RAD
    ring
  generalize 1.25 * (π - PI) = d at hd1 hd2 ht
  rw [ht, Real.sin_add_pi, Real.cos_add_pi, Real.sin_sub, Real.cos_sub, Real.sin_pi_div_four,
    Real.cos_pi_div_four]
  have hs1 : 0 < Real.sin d := Real.sin_pos_of_pos_of_lt_pi hd1 (by linarith [Real.pi_gt_three])
  have hs2 : Real.sin d < d := Real.sin_lt hd1
  have hc1 : Real.cos d ≤ 1 := Real.cos_le_one d
  have hc2 : 0.9999 ≤ Real.cos d := by
    have := Real.one_sub_sq_div_two_le_cos (x := d)
    nlinarith
  have hq0 : 0 < Real.sqrt 2 / 2 := by linarith
  have a1 : Real.sqrt 2 / 2 * Real.cos d ≤ Real.sqrt 2 / 2 * 1 :=
    mul_le_mul_of_nonneg_left hc1 hq0.le
  have a2 : Real.sqrt 2 / 2 * 0.9999 ≤ Real.sqrt 2 / 2 * Real.cos d :=
    mul_le_mul_of_nonneg_left hc2 hq0.le
  have a3 : 0 < Real.sqrt 2 / 2 * Real.sin d := mul_pos hq0 hs1
  have a4 : Real.sqrt 2 / 2 * Real.sin d ≤ Real.sqrt 2 / 2 * 0.00001 :=
    mul_le_mul_of_nonneg_left (by linarith) hq0.le
  refine ⟨?_, ?_, ?_, ?_⟩ <;> linarith

/-- The angle of a vector near `(-7.071, -0.571)`, in degrees, lies in (-176, -175]. -/
theorem atan2_third_quadrant (x y : ℝ) (hx1 : -7.072 < x) (hx2 : x < -7.070)
    (hy1 : -0.572 < y) (hy2 : y < -0.570) :
    -176 < realLibm.atan2 y x * RAD_TO_DEG ∧ realLibm.atan2 y x * RAD_TO_DEG ≤ -175 := by
  rw [realLibm_atan2]
  have hx0 : x < 0 := by linarith
  have hφ1 : -π < Complex.arg (Complex.mk x y) := Complex.neg_pi_lt_arg _
  have hφ2 : Complex.arg (Complex.mk x y) < -(π / 2) := by
    by_contra h
    push_neg at h
    rcases Complex.neg_pi_div_two_le_arg_iff.mp h with h | h
    · simp only at h; linarith
    · simp only at h; linarith
  have htan : Real.tan (Complex.arg (Complex.mk x y) + π) = y / x := by
    rw [Real.tan_add_pi, Complex.tan_arg]
  generalize Complex.arg (Complex.mk x y) = φ at hφ1 hφ2 htan
  have hq1 : y / x < 0.081 := by
    rw [div_lt_iff_of_neg hx0]; linarith
  have hq2 : 0.08 < y / x := by
    rw [lt_div_iff_of_neg hx0]; linarith
  have hu : φ + π < 0.081 := by
    have := Real.lt_tan (x := φ + π) (by linarith) (by linarith)
    linarith
  have hl : 0.07 < φ + π := by
    by_contra h
    push_neg at h
    have h7 : Real.tan 0.07 < 0.0702 := by
      have hc : 0.99755 ≤ Real.cos 0.07 := by
        have := Real.one_sub_sq_div_two_le_cos (x := 0.07)
        norm_num at this ⊢
        linarith
      have hs : Real.sin 0.07 < 0.07 := Real.sin_lt (by norm_num)
      rw [Real.tan_eq_sin_div_cos, div_lt_iff₀ (by linarith)]
      linarith
    have hle : Real.tan (φ + π) ≤ Real.tan 0.07 := by
      rcases h.lt_or_eq with h | h
      · exact (Real.tan_lt_tan_of_lt_of_lt_pi_div_two (by linarith)
          (by linarith [Real.pi_gt_three]) h).le
      · rw [h]
    linarith
  have p1 := Real.pi_gt_d2
  have p2 := Real.pi_lt_d4
  unfold RAD_TO_DEG PI
  rw [← mul_div_assoc, lt_div_iff₀ (by norm_num), div_le_iff₀ (by norm_num)]
  constructor <;> linarith

/-- Claim C13: on the input of `test.c` (`awa = 45, aws = 10, cog = 90, heading = 85,
bspd = 6.5, sog = 6`, the rest zero, `speedunit` empty) `get_true` passes validation (nothing
on `stderr`) and returns leeway 0, `twa = 85`, and `tws = sqrt (142.25 + 130 * sin (225 *
DEG_TO_RAD))`, which lies strictly between 7.09 and 7.10. -/
theorem C13_reference_input :
    (get_true realLibm reference_input).2 = [] ∧
      (get_true realLibm reference_input).1.leeway = 0 ∧
      (get_true realLibm reference_input).1.twa = 85 ∧
      (get_true realLibm reference_input).1.tws =
        Real.sqrt (142.25 + 130 * Real.sin (225 * DEG_TO_RAD)) ∧
      7.09 < (get_true realLibm reference_input).1.tws ∧
      (get_true realLibm reference_input).1.tws < 7.10 := by
  have hv : (reference_input : tw_input ℝ).K = 0 ∨
      (reference_input : tw_input ℝ).speedunit = "kt" ∨
      (reference_input : tw_input ℝ).speedunit = "m/s" := Or.inl rfl
  rw [get_true_pass _ _ hv]
  simp only []
  obtain ⟨eawa, ex, ey⟩ := tws_vector_plain reference_input rfl
    (by norm_num [reference_input]) (by norm_num [reference_input])
  obtain ⟨s1, s2, c1, c2⟩ := reference_angle_bounds
  have e225 : (225 : ℝ) * DEG_TO_RAD = (270 - 45) * DEG_TO_RAD := by norm_num
  have ex2 : tws_x realLibm reference_input = 10 * Real.cos ((270 - 45) * DEG_TO_RAD) := ex
  have ey2 : tws_y realLibm reference_input =
      10 * Real.sin ((270 - 45) * DEG_TO_RAD) + 6.5 := ey
  have hsc := Real.sin_sq_add_cos_sq ((270 - 45) * (DEG_TO_RAD : ℝ))
  rw [e225]
  generalize Real.sin ((270 - 45) * (DEG_TO_RAD : ℝ)) = sn at s1 s2 ey2 hsc ⊢
  generalize Real.cos ((270 - 45) * (DEG_TO_RAD : ℝ)) = cs at c1 c2 ex2 hsc
  have htws : (get_true_compute realLibm reference_input).tws =
      Real.sqrt (142.25 + 130 * sn) := by
    rw [out_tws, ex2, ey2, realLibm_sqrt]
    congr 1
    linear_combination 100 * hsc
  have hne : ¬ (tws_y realLibm reference_input = 0 ∧ tws_x realLibm reference_input = 0) := by
    rw [ex2]
    intro h
    linarith [h.2]
  have hawa : 0 ≤ (get_true_compute realLibm reference_input).awa := by
    rw [eawa]
    norm_num [reference_input]
  obtain ⟨etwa, -⟩ := twa_truncated_spec reference_input hne hawa
  obtain ⟨a1, a2⟩ := atan2_third_quadrant (tws_x realLibm reference_input)
    (tws_y realLibm reference_input) (by rw [ex2]; linarith) (by rw [ex2]; linarith)
    (by rw [ey2]; linarith) (by rw [ey2]; linarith)
  have hraw1 : 445 ≤ twa_raw realLibm reference_input := by unfold twa_raw; linarith
  have hraw2 : twa_raw realLibm reference_input < 446 := by unfold twa_raw; linarith
  have hc : c_int_cast (twa_raw realLibm reference_input) = 445 := by
    unfold c_int_cast
    rw [if_pos (by linarith), Int.floor_eq_iff]
    constructor
    · push_cast; linarith
    · push_cast; linarith
  have hmod : Int.tmod 445 360 = 85 := by decide
  refine ⟨trivial, ?_, ?_, htws, ?_, ?_⟩
  · rw [out_leeway]
    exact if_pos (Or.inr (Or.inl rfl))
  · rw [etwa, hc, hmod]
    norm_num
  · rw [htws, Real.lt_sqrt (by norm_num)]
    norm_num
    linarith
  · rw [htws, Real.sqrt_lt' (by norm_num)]
    norm_num
    linarith

/-- Claim C14: round trip of the true wind speed. If the apparent wind `(aws, awa)`, with
`awa` in [-180, 180], is the true wind vector of speed `T ≥ 0` and angle `θ` minus the boat
motion `bspd`, then `get_true` with `roll = 0` and `K = 0` returns `tws = T`; `pitch`,
`variation` and the other fields are free. -/
theorem C14_round_trip_tws (s : tw_input ℝ) (T θ : ℝ) (hroll : s.roll = 0) (hK : s.K = 0)
    (h1 : -180 ≤ s.awa) (h2 : s.awa ≤ 180) (hT : 0 ≤ T)
    (hx : s.aws * Real.cos ((270 - s.awa) * DEG_TO_RAD) = T * Real.cos ((270 - θ) * DEG_TO_RAD))
    (hy : s.aws * Real.sin ((270 - s.awa) * DEG_TO_RAD) + s.bspd =
      T * Real.sin ((270 - θ) * DEG_TO_RAD)) :
    (get_true realLibm s).1.tws = T := by
  rw [get_true_pass _ _ (Or.inl hK)]
  obtain ⟨-, ex, ey⟩ := tws_vector_plain s hroll h1 h2
  show (get_true_compute realLibm s).tws = T
  rw [out_tws, ex, ey, hx, hy, realLibm_sqrt]
  have : T * Real.cos ((270 - θ) * DEG_TO_RAD) * (T * Real.cos ((270 - θ) * DEG_TO_RAD)) +
      T * Real.sin ((270 - θ) * DEG_TO_RAD) * (T * Real.sin ((270 - θ) * DEG_TO_RAD)) = T ^ 2 := by
    nlinarith [Real.sin_sq_add_cos_sq ((270 - θ) * DEG_TO_RAD)]
  rw [this, Real.sqrt_sq hT]

/-- Witness of `C14_round_trip_tws`: a moored boat in 10 of wind from 45 degrees, `T = 10` and
`θ = 45`. -/
theorem C14_round_trip_tws_witness :
    (get_true realLibm (moored_input 10 45)).1.tws = 10 :=
  C14_round_trip_tws (moored_input 10 45) 10 45 rfl rfl (by norm_num [moored_input])
    (by norm_num [moored_input]) (by norm_num) rfl (by simp [moored_input])

/-- Claim C15, refuted: a moored boat in 10 of wind from 45.5 degrees is the round trip of
`T = 10`, `θ = 45.5` (`bspd = 0`), and `get_true` returns `twa = 45`: the angle is truncated to
a whole number of degrees because `awa ≥ 0`. -/
theorem C15_counterexample :
    (moored_input 10 45.5 : tw_input ℝ).aws *
        Real.cos ((270 - (moored_input 10 45.5 : tw_input ℝ).awa) * DEG_TO_RAD) =
        10 * Real.cos ((270 - 45.5) * DEG_TO_RAD) ∧
      (moored_input 10 45.5 : tw_input ℝ).aws *
        Real.sin ((270 - (moored_input 10 45.5 : tw_input ℝ).awa) * DEG_TO_RAD) +
          (moored_input 10 45.5 : tw_input ℝ).bspd =
        10 * Real.sin ((270 - 45.5) * DEG_TO_RAD) ∧
      (get_true realLibm (moored_input 10 45.5)).1.twa = 45 ∧
      ¬ (|(get_true realLibm (moored_input 10 45.5)).1.twa - 45.5| < 0.000001) := by
  have hxx : (moored_input 10 45.5 : tw_input ℝ).aws *
        Real.cos ((270 - (moored_input 10 45.5 : tw_input ℝ).awa) * DEG_TO_RAD) =
        10 * Real.cos ((270 - 45.5) * DEG_TO_RAD) := rfl
  have hyy : (moored_input 10 45.5 : tw_input ℝ).aws *
        Real.sin ((270 - (moored_input 10 45.5 : tw_input ℝ).awa) * DEG_TO_RAD) +
          (moored_input 10 45.5 : tw_input ℝ).bspd =
        10 * Real.sin ((270 - 45.5) * DEG_TO_RAD) := by simp [moored_input]
  have htwa : (get_true realLibm (moored_input 10 45.5)).1.twa = 45 := by
    rw [get_true_pass _ _ (Or.inl rfl)]
    show (get_true_compute realLibm (moored_input 10 45.5)).twa = 45
    obtain ⟨eawa, ex, ey⟩ := tws_vector_plain (moored_input 10 45.5) rfl
      (by norm_num [moored_input]) (by norm_num [moored_input])
    obtain ⟨hne, hraw⟩ := twa_raw_polar (moored_input 10 45.5) 10 45.5 (by norm_num)
      (by norm_num) (by norm_num) (ex.trans hxx) (ey.trans hyy)
    obtain ⟨hb1, hb2⟩ := two_pi_RAD_bounds
    have hawa : (0 : ℝ) ≤ (get_true_compute realLibm (moored_input 10 45.5)).awa := by
      rw [eawa]; norm_num [moored_input]
    obtain ⟨etwa, -⟩ := twa_truncated_spec (moored_input 10 45.5) hne hawa
    rcases hraw with ⟨-, hθ⟩ | ⟨e, -⟩
    · norm_num at hθ
    · have hfloor : c_int_cast (twa_raw realLibm (moored_input 10 45.5)) = 405 := by
        unfold c_int_cast
        rw [if_pos (by rw [e]; linarith), Int.floor_eq_iff, e]
        constructor
        · push_cast; linarith
        · push_cast; linarith
      have hmod : Int.tmod 405 360 = 45 := by decide
      rw [etwa, hfloor, hmod]
      norm_num
  refine ⟨hxx, hyy, htwa, ?_⟩
  rw [htwa]
  norm_num [abs_lt]

/-- Claim C15, amended: round trip of the true wind angle, for `T > 0` and `θ` in (-180, 180].
When `awa < 0` and `θ < 180` the returned `twa` is within 1e-6 of `θ`. When `awa ≥ 0` and
`θ ≥ -179` the returned `twa` is a whole number with `θ - 1 < twa < θ + 1e-6` (so it is `θ`
when `θ` is whole). `pitch`, `variation` and the other fields are free. -/
theorem C15_round_trip_twa (s : tw_input ℝ) (T θ : ℝ) (hroll : s.roll = 0) (hK : s.K = 0)
    (h1 : -180 ≤ s.awa) (h2 : s.awa ≤ 180) (hT : 0 < T) (hθ1 : -180 < θ) (hθ2 : θ ≤ 180)
    (hx : s.aws * Real.cos ((270 - s.awa) * DEG_TO_RAD) = T * Real.cos ((270 - θ) * DEG_TO_RAD))
    (hy : s.aws * Real.sin ((270 - s.awa) * DEG_TO_RAD) + s.bspd =
      T * Real.sin ((270 - θ) * DEG_TO_RAD)) :
    (s.awa < 0 → θ < 180 → |(get_true realLibm s).1.twa - θ| < 0.000001) ∧
      (0 ≤ s.awa → -179 ≤ θ →
        (∃ n : ℤ, (get_true realLibm s).1.twa = (n : ℝ)) ∧
          θ - 1 < (get_true realLibm s).1.twa ∧
          (get_true realLibm s).1.twa < θ + 0.000001) := by
  rw [get_true_pass _ _ (Or.inl hK)]
  simp only []
  obtain ⟨eawa, ex, ey⟩ := tws_vector_plain s hroll h1 h2
  obtain ⟨hne, hraw⟩ := twa_raw_polar s T θ hT hθ1 hθ2 (ex.trans hx) (ey.trans hy)
  obtain ⟨hb1, hb2⟩ := two_pi_RAD_bounds
  constructor
  · intro hneg hlt
    rw [out_twa_raw, if_neg hne, eawa, if_neg (not_le.mpr hneg)]
    rcases hraw with ⟨e, hθ⟩ | ⟨e, hθ⟩
    · rw [e, if_neg (by linarith), if_pos (by linarith)]
      rw [abs_lt]; constructor <;> linarith
    · rw [e, if_neg (by linarith), if_neg (by linarith)]
      rw [abs_lt]; constructor <;> linarith
  · intro hpos hθ3
    obtain ⟨-, n, k, etwa, hn1, hn2, hk1, hk2⟩ := twa_truncated_spec s hne (by rw [eawa]; exact hpos)
    have hn1' : (-179 : ℝ) ≤ (n : ℝ) := by
      have : (-179 : ℤ) ≤ n := by omega
      exact_mod_cast this
    have hn2' : (n : ℝ) ≤ 180 := by exact_mod_cast hn2
    rw [etwa]
    refine ⟨⟨n, rfl⟩, ?_⟩
    rcases hraw with ⟨e, hθ⟩ | ⟨e, hθ⟩
    · rw [e] at hk1 hk2
      have hk0 : k = 0 := by
        have a1 : (k : ℝ) < 1 := by nlinarith
        have a2 : (-1 : ℝ) < (k : ℝ) := by nlinarith
        have a1' : k < 1 := by exact_mod_cast a1
        have a2' : -1 < k := by exact_mod_cast a2
        omega
      rw [hk0] at hk1 hk2
      push_cast at hk1 hk2
      constructor <;> linarith
    · rw [e] at hk1 hk2
      have hk0 : k = 1 := by
        have a1 : (k : ℝ) < 2 := by nlinarith
        have a2 : (0 : ℝ) < (k : ℝ) := by nlinarith
        have a1' : k < 2 := by exact_mod_cast a1
        have a2' : 0 < k := by exact_mod_cast a2
        omega
      rw [hk0] at hk1 hk2
      push_cast at hk1 hk2
      constructor <;> linarith

/-- Witness of `C15_round_trip_twa`: a moored boat in 10 of wind from -45.5 degrees. -/
theorem C15_round_trip_twa_witness :
    |(get_true realLibm (moored_input 10 (-45.5))).1.twa - (-45.5)| < 0.000001 :=
  (C15_round_trip_twa (moored_input 10 (-45.5)) 10 (-45.5) rfl rfl
    (by norm_num [moored_input]) (by norm_num [moored_input]) (by norm_num) (by norm_num)
    (by norm_num) rfl (by simp [moored_input])).1
    (by norm_num [moored_input]) (by norm_num)

/-- Claim C16: for an input with `K = 0` and every string `u`, the input and its copy with
`speedunit` replaced by `u` both pass validation (nothing is written to `stderr`) and
`get_true` returns the same record for both. -/
theorem C16_speedunit_irrelevant (m : Libm α) (s : tw_input α) (u : String) (hK : s.K = 0) :
    (get_true m s).2 = [] ∧ (get_true m { s with speedunit := u }).2 = [] ∧
      get_true m { s with speedunit := u } = get_true m s := by
  rw [get_true_pass m s (Or.inl hK), get_true_pass m { s with speedunit := u } (Or.inl hK),
    get_true_compute_speedunit m s u hK]
  exact ⟨rfl, rfl, rfl⟩

/-- Witness of `C16_speedunit_irrelevant`: the input of `test.c` with the unit "mph". -/
theorem C16_speedunit_irrelevant_witness :
    get_true realLibm { (reference_input : tw_input ℝ) with speedunit := "mph" } =
      get_true realLibm (reference_input : tw_input ℝ) :=
  (C16_speedunit_irrelevant realLibm reference_input "mph" rfl).2.2

/-- Claim C17: the truncation quirk. For an input that passes validation with a non-zero true
wind vector (`tws ≠ 0`): if the returned `awa` is not negative, `twa` is the truncation of the
angle of line 116 reduced modulo 360 and lowered by 360 when it exceeds 180, a whole number,
below or equal to the untruncated angle by less than 1 modulo 360; if the returned `awa` is
negative there is no truncation: `twa` is the angle of line 116 minus 360, raised by 360 when
below -180. -/
theorem C17_truncation_quirk (s : tw_input ℝ)
    (hv : s.K = 0 ∨ s.speedunit = "kt" ∨ s.speedunit = "m/s")
    (hne : (get_true realLibm s).1.tws ≠ 0) :
    (0 ≤ (get_true realLibm s).1.awa →
        (get_true realLibm s).1.twa =
            (if Int.tmod (c_int_cast (twa_raw realLibm s)) 360 > 180 then
              ((Int.tmod (c_int_cast (twa_raw realLibm s)) 360 - 360 : ℤ) : ℝ)
            else ((Int.tmod (c_int_cast (twa_raw realLibm s)) 360 : ℤ) : ℝ)) ∧
          (∃ n : ℤ, (get_true realLibm s).1.twa = (n : ℝ)) ∧
          ∃ k : ℤ, (get_true realLibm s).1.twa + 360 * (k : ℝ) ≤ twa_raw realLibm s ∧
            twa_raw realLibm s < (get_true realLibm s).1.twa + 360 * (k : ℝ) + 1) ∧
      ((get_true realLibm s).1.awa < 0 →
        (get_true realLibm s).1.twa =
          if twa_raw realLibm s - 360 < -180 then twa_raw realLibm s else
            twa_raw realLibm s - 360) := by
  rw [get_true_pass _ _ hv] at hne ⊢
  simp only [] at hne ⊢
  have hne' : ¬ (tws_y realLibm s = 0 ∧ tws_x realLibm s = 0) := by
    intro h
    exact hne ((out_tws_eq_zero_iff s).mpr ⟨h.2, h.1⟩)
  obtain ⟨b1, b2⟩ := twa_raw_bounds s
  constructor
  · intro hawa
    obtain ⟨e, n, k, etwa, -, -, hk1, hk2⟩ := twa_truncated_spec s hne' hawa
    refine ⟨e, ⟨n, etwa⟩, k, ?_, ?_⟩
    · rw [etwa]; exact hk1
    · rw [etwa]; exact hk2
  · intro hawa
    rw [out_twa_raw, if_neg hne', if_neg (not_le.mpr hawa), if_neg (by linarith)]
    split_ifs
    · ring
    · rfl

/-- Witness of `C17_truncation_quirk`: a boat moving at 5 with no apparent wind (`awa = 0`);
the returned `twa` is a whole number. -/
theorem C17_truncation_quirk_witness :
    ∃ n : ℤ, (get_true realLibm no_current_input).1.twa = (n : ℝ) := by
  have hv : (no_current_input : tw_input ℝ).K = 0 ∨
      (no_current_input : tw_input ℝ).speedunit = "kt" ∨
      (no_current_input : tw_input ℝ).speedunit = "m/s" := Or.inl rfl
  obtain ⟨eawa, -, ey⟩ := tws_vector_plain no_current_input rfl
    (by norm_num [no_current_input]) (by norm_num [no_current_input])
  have hne : (get_true realLibm no_current_input).1.tws ≠ 0 := by
    rw [get_true_pass _ _ hv]
    intro h
    have h2 := ((out_tws_eq_zero_iff no_current_input).mp h).2
    rw [ey] at h2
    norm_num [no_current_input] at h2
  have hawa : 0 ≤ (get_true realLibm no_current_input).1.awa := by
    rw [get_true_pass _ _ hv]
    show 0 ≤ (get_true_compute realLibm no_current_input).awa
    rw [eawa]
    norm_num [no_current_input]
  exact ((C17_truncation_quirk no_current_input hv hne).1 hawa).2.1

/-- Claim C19: for an input that passes validation the speed of current satisfies the law of
cosines `soc ^ 2 = sog ^ 2 + stw ^ 2 - 2 sog stw cos ((cog - variation - heading - leeway) *
DEG_TO_RAD)` with `soc ≥ 0`, so `soc` is the square root of that expression and reads `cog`,
`variation` and `heading` through the difference only; `soc = 0` when `sog = stw` and
`cog - variation = heading + leeway`. -/
theorem C19_law_of_cosines (s : tw_input ℝ)
    (hv : s.K = 0 ∨ s.speedunit = "kt" ∨ s.speedunit = "m/s") :
    (get_true realLibm s).1.soc ^ 2 =
        s.sog ^ 2 + (get_true realLibm s).1.stw ^ 2 -
          2 * s.sog * (get_true realLibm s).1.stw *
            Real.cos ((s.cog - s.variation - s.heading - (get_true realLibm s).1.leeway) *
              DEG_TO_RAD) ∧
      0 ≤ (get_true realLibm s).1.soc ∧
      (get_true realLibm s).1.soc =
        Real.sqrt (s.sog ^ 2 + (get_true realLibm s).1.stw ^ 2 -
          2 * s.sog * (get_true realLibm s).1.stw *
            Real.cos ((s.cog - s.variation - s.heading - (get_true realLibm s).1.leeway) *
              DEG_TO_RAD)) ∧
      (s.sog = (get_true realLibm s).1.stw →
        s.cog - s.variation = s.heading + (get_true realLibm s).1.leeway →
        (get_true realLibm s).1.soc = 0) := by
  rw [get_true_pass _ _ hv]
  simp only []
  have hsoc := out_soc realLibm s
  rw [realLibm_sqrt] at hsoc
  have hlaw : curr_x realLibm s * curr_x realLibm s + curr_y realLibm s * curr_y realLibm s =
      s.sog ^ 2 + (get_true_compute realLibm s).stw ^ 2 -
        2 * s.sog * (get_true_compute realLibm s).stw *
          Real.cos ((s.cog - s.variation - s.heading - (get_true_compute realLibm s).leeway) *
            DEG_TO_RAD) := by
    unfold curr_x curr_y
    simp only [realLibm_cos, realLibm_sin]
    rw [cos_sq_law]
    have e : (90 - (s.heading + (get_true_compute realLibm s).leeway)) * DEG_TO_RAD -
        (90 - (s.cog - s.variation)) * DEG_TO_RAD =
        (s.cog - s.variation - s.heading - (get_true_compute realLibm s).leeway) *
          DEG_TO_RAD := by ring
    rw [e]
  have hnn : 0 ≤ curr_x realLibm s * curr_x realLibm s + curr_y realLibm s * curr_y realLibm s :=
    add_nonneg (mul_self_nonneg _) (mul_self_nonneg _)
  refine ⟨?_, ?_, ?_, ?_⟩
  · rw [hsoc, Real.sq_sqrt hnn, hlaw]
  · rw [hsoc]; exact Real.sqrt_nonneg _
  · rw [hsoc, hlaw]
  · intro h1 h2
    rw [out_soc_eq_zero_iff]
    unfold curr_x curr_y
    rw [h1, h2]
    exact ⟨sub_self _, sub_self _⟩

/-- Witness of `C19_law_of_cosines`: the input of `test.c`. -/
theorem C19_law_of_cosines_witness :
    0 ≤ (get_true realLibm reference_input).1.soc :=
  (C19_law_of_cosines reference_input (Or.inl rfl)).2.1

end Claims2

end TrueWind
